import Mathlib

/-!
Verification of the Conway Game-of-Life engine in `script/main.py`.

The grid is a Python list of lists of ints (`1` live, `0` dead).  Python
list indexing (which supports negative indices counting from the end and
raises `IndexError` out of range) is modelled by `pyGet`/`pySet` returning
`Option`; every fallible source operation therefore lives in the `Option`
monad, with `none` standing for a raised exception.

`create_next_grid` mutates the `next_grid` buffer in place while reading
the `grid` buffer.  To keep that aliasing structure observable, the pair
of buffers is modelled as a `Store : Bool → Grid` addressed by buffer
name; reads go through the current-buffer name and writes through the
next-buffer name, exactly as the Python objects would.
-/

namespace GameOfLife

abbrev Cell := Nat

abbrev Grid := List (List Cell)

/-- Python list read `l[k]`: a negative index counts from the end, an
index out of range raises (`none`). -/
def pyGet {α : Type} (l : List α) (k : Int) : Option α :=
  if 0 ≤ k then l[k.toNat]?
  else if 0 ≤ k + (l.length : Int) then l[(k + (l.length : Int)).toNat]?
  else none

/-- Python list element assignment `l[k] = v`: same index discipline as
`pyGet`, raising (`none`) out of range. -/
def pySet {α : Type} (l : List α) (k : Int) (v : α) : Option (List α) :=
  if 0 ≤ k then
    if k < (l.length : Int) then some (l.set k.toNat v) else none
  else if 0 ≤ k + (l.length : Int) then
    some (l.set (k + (l.length : Int)).toNat v)
  else none

/-- Python two-level read `g[i][j]`. -/
def pyGet2 (g : Grid) (i j : Int) : Option Cell := do
  let r ← pyGet g i
  pyGet r j

/-- Total cell accessor used to state properties (defaults to `0` out of
range; the theorems only apply it in range). -/
def cellAt (g : Grid) (r c : Nat) : Nat := (g.getD r []).getD c 0

/-- The grid is a well-formed `rows × cols` list of lists. -/
def Proper (g : Grid) (rows cols : Nat) : Prop :=
  g.length = rows ∧ ∀ r ∈ g, r.length = cols

/-- Every cell of the grid is `0` or `1`. -/
def BinaryGrid (g : Grid) : Prop :=
  ∀ r ∈ g, ∀ c ∈ r, c = 0 ∨ c = 1

instance (g : Grid) (rows cols : Nat) : Decidable (Proper g rows cols) :=
  inferInstanceAs (Decidable (g.length = rows ∧ ∀ r ∈ g, r.length = cols))

instance (g : Grid) : Decidable (BinaryGrid g) :=
  inferInstanceAs (Decidable (∀ r ∈ g, ∀ c ∈ r, c = 0 ∨ c = 1))

/-- `get_live_neighbors(row, col, rows, cols, grid)` from the source:
sums `grid[(row+i) % rows][(col+j) % cols]` over the eight offsets
`(i, j) ∈ {-1,0,1}² \ {(0,0)}`.  Python `%` on a positive modulus agrees
with `Int.emod`. -/
def get_live_neighbors (row col : Int) (rows cols : Nat) (grid : Grid) :
    Option Nat :=
  ([-1, 0, 1] : List Int).foldlM (fun life_sum i =>
    ([-1, 0, 1] : List Int).foldlM (fun life_sum j =>
      if i = 0 ∧ j = 0 then pure life_sum
      else do
        let c ← pyGet2 grid ((row + i) % (rows : Int)) ((col + j) % (cols : Int))
        pure (life_sum + c)) life_sum) 0

/-- The eight neighbor offsets, in the order the source's loops visit
them. -/
def neighborOffsets : List (Int × Int) :=
  [(-1, -1), (-1, 0), (-1, 1), (0, -1), (0, 1), (1, -1), (1, 0), (1, 1)]

/-- Value of the cell at coordinates wrapped modulo `rows`/`cols`. -/
def wrapCell (rows cols : Nat) (g : Grid) (r c : Int) : Nat :=
  cellAt g ((r % (rows : Int)).toNat) ((c % (cols : Int)).toNat)

/-- The eight wrapped neighbor positions of `(row, col)`. -/
def neighborPositions (rows cols : Nat) (row col : Int) : List (Nat × Nat) :=
  neighborOffsets.map fun p =>
    (((row + p.1) % (rows : Int)).toNat, ((col + p.2) % (cols : Int)).toNat)

/-- Mathematical value of the neighbor sum computed by
`get_live_neighbors`. -/
def neighborSum (rows cols : Nat) (g : Grid) (row col : Int) : Nat :=
  (neighborOffsets.map fun p => wrapCell rows cols g (row + p.1) (col + p.2)).sum
/-- The two grid buffers of the program (`current_generation` and
`next_generation`), addressed by name, so that aliasing between the
buffer that is read and the buffer that is written stays observable. -/
abbrev Store := Bool → Grid

/-- Replace the contents of the buffer named `n`. -/
def setBuf (st : Store) (n : Bool) (g : Grid) : Store :=
  fun b => if b = n then g else st b

/-- Python statement `next_grid[row][col] = v` on the buffer named
`nxt`: reads the row object, assigns into it, raising out of range. -/
def setCellInBuf (st : Store) (nxt : Bool) (row col : Int) (v : Cell) :
    Option Store := do
  let g := st nxt
  let r ← pyGet g row
  let r' ← pySet r col v
  let g' ← pySet g row r'
  some (setBuf st nxt g')

/-- Loop body of `create_next_grid` for one cell `(row, col)`:
compute the live-neighbor count of `grid[row][col]` and write the new
state into `next_grid[row][col]`, reading `grid` from the buffer named
`cur` and writing the buffer named `nxt`. -/
def stepCell (rows cols : Nat) (cur nxt : Bool) (row col : Nat)
    (st : Store) : Option Store := do
  let live_neighbors ← get_live_neighbors row col rows cols (st cur)
  if live_neighbors < 2 ∨ live_neighbors > 3 then
    setCellInBuf st nxt row col 0
  else do
    let s ← pyGet2 (st cur) row col
    if live_neighbors = 3 ∧ s = 0 then setCellInBuf st nxt row col 1
    else setCellInBuf st nxt row col s

/-- `create_next_grid(rows, cols, grid, next_grid)` from the source:
the row-major double loop of cell updates, with `grid` the buffer named
`cur` and `next_grid` the buffer named `nxt`. -/
def create_next_grid (rows cols : Nat) (cur nxt : Bool) (st : Store) :
    Option Store :=
  (List.range rows).foldlM (fun st row =>
    (List.range cols).foldlM (fun st col =>
      stepCell rows cols cur nxt row col st) st) st

/-- The B3/S23 transition exactly as the source's branches write it. -/
def ruleCell (rows cols : Nat) (g : Grid) (row col : Nat) : Nat :=
  let n := neighborSum rows cols g row col
  if n < 2 ∨ n > 3 then 0
  else if n = 3 ∧ cellAt g row col = 0 then 1
  else cellAt g row col

/-- The full next generation of a grid, as a pure function. -/
def nextGen (rows cols : Nat) (g : Grid) : Grid :=
  (List.range rows).map fun row =>
    (List.range cols).map fun col => ruleCell rows cols g row col

/-- Functional update of one cell of a grid. -/
def setRowCol (g : Grid) (r c : Nat) (v : Cell) : Grid :=
  g.set r ((g.getD r []).set c v)

/-- Monadic early-exit disjunction, the shape of the source's
`for … : if …: return True … return False` scan. -/
def anyBreak {m : Type → Type} [Monad m] {α : Type} (p : α → m Bool) :
    List α → m Bool
  | [] => pure false
  | a :: as => do
    let b ← p a
    if b then pure true else anyBreak p as

/-- `grid_changing(rows, cols, grid, next_grid)` from the source:
row-major scan returning `True` at the first differing cell, `False`
after scanning every cell. -/
def grid_changing (rows cols : Nat) (grid next_grid : Grid) : Option Bool :=
  anyBreak (fun row : Nat =>
    anyBreak (fun col : Nat => do
      let a ← pyGet2 grid (row : Int) (col : Int)
      let b ← pyGet2 next_grid (row : Int) (col : Int)
      pure (!(a == b))) (List.range cols)) (List.range rows)

/-- `create_initial_grid(rows, cols)` from the source, with the
process-wide random source abstracted as the stream `rand` of
`random.randint(0, 7)` results, consumed in row-major call order: a
cell is live iff its draw is `0`. -/
def create_initial_grid (rows cols : Nat) (rand : Nat → Nat) : Grid :=
  (List.range rows).map fun row =>
    (List.range cols).map fun col =>
      if rand (row * cols + col) = 0 then 1 else 0

/-- The `for gen in range(1, generations + 1)` loop of `run_game`,
with `fuel` the number of loop indices still to visit and `gen` the next
index.  Returns the list of in-loop `print_grid` calls (grid snapshot
and generation number, in order), the grid and generation number of the
final post-loop `print_grid`, and `true` iff the loop exited via the
stability `break`.  When the range is exhausted Python's `gen` variable
holds the last visited index (`generations` when `generations ≥ 1`, its
initial value `1` otherwise), hence the `max 1 (gen - 1)`. -/
def run_loop (rows cols : Nat) :
    Nat → Nat → Bool → Bool → Store →
      Option (List (Grid × Nat) × Grid × Nat × Bool)
  | 0, gen, cur, _, st => some ([], st cur, max 1 (gen - 1), false)
  | fuel + 1, gen, cur, nxt, st => do
    let changing ← grid_changing rows cols (st cur) (st nxt)
    if changing then do
      let st' ← create_next_grid rows cols cur nxt st
      let r ← run_loop rows cols fuel (gen + 1) nxt cur st'
      pure ((st cur, gen) :: r.1, r.2)
    else
      pure ([], st cur, gen, true)

/-- The core of `run_game(…)` after input collection: the two random
initial buffers are given as `g₁` (`current_generation`) and `g₂`
(`next_generation`); returns the full sequence of `print_grid` calls,
the single post-loop call included last. -/
def run_game (rows cols generations : Nat) (g₁ g₂ : Grid) :
    Option (List (Grid × Nat)) := do
  let r ← run_loop rows cols generations 1 true false
    (fun b => if b then g₁ else g₂)
  pure (r.1 ++ [(r.2.1, r.2.2.1)])

/-- 5×5 still-life: a 2×2 block of live cells at rows 1–2, columns 1–2. -/
def blockGrid : Grid :=
  [[0, 0, 0, 0, 0],
   [0, 1, 1, 0, 0],
   [0, 1, 1, 0, 0],
   [0, 0, 0, 0, 0],
   [0, 0, 0, 0, 0]]

/-- 5×5 horizontal blinker: live cells at (2,1), (2,2), (2,3). -/
def blinkerGrid : Grid :=
  [[0, 0, 0, 0, 0],
   [0, 0, 0, 0, 0],
   [0, 1, 1, 1, 0],
   [0, 0, 0, 0, 0],
   [0, 0, 0, 0, 0]]

/-- 5×5 vertical blinker: live cells at (1,2), (2,2), (3,2). -/
def blinkerVertGrid : Grid :=
  [[0, 0, 0, 0, 0],
   [0, 0, 1, 0, 0],
   [0, 0, 1, 0, 0],
   [0, 0, 1, 0, 0],
   [0, 0, 0, 0, 0]]

/-- 5×5 all-dead grid. -/
def deadGrid5 : Grid := List.replicate 5 (List.replicate 5 0)

/-- 3×3 grid with a single live cell in the center. -/
def crossGrid : Grid := [[0, 0, 0], [0, 1, 0], [0, 0, 0]]

/-- Store holding the block still-life in the `true` buffer and a dead
grid in the `false` buffer. -/
def blockStore : Store := fun b => if b then blockGrid else deadGrid5

/-- Store holding the blinker in the `true` buffer and a dead grid in
the `false` buffer. -/
def blinkerStore : Store := fun b => if b then blinkerGrid else deadGrid5

/-- Store holding the blinker in the `true` buffer and the block grid
in the `false` buffer (same current buffer as `blinkerStore`, different
next-buffer contents). -/
def mixedStore : Store := fun b => if b then blinkerGrid else blockGrid


lemma pyGet_nonneg {α : Type} (l : List α) (k : Int) (d : α) (h0 : 0 ≤ k)
    (h1 : k.toNat < l.length) : pyGet l k = some (l.getD k.toNat d) := by
  unfold pyGet
  rw [if_pos h0, List.getElem?_eq_getElem h1]
  simp [List.getD_eq_getElem?_getD, List.getElem?_eq_getElem h1]

lemma pyGet_nat {α : Type} (l : List α) (n : Nat) (d : α) (h : n < l.length) :
    pyGet l (n : Int) = some (l.getD n d) := by
  have := pyGet_nonneg l (n : Int) d (by positivity) (by simpa)
  simpa using this

lemma Proper.row_mem {g : Grid} {rows cols : Nat} (hp : Proper g rows cols)
    {i : Nat} (h : i < rows) : g.getD i [] ∈ g := by
  have hl : i < g.length := by rw [hp.1]; exact h
  have : g.getD i [] = g[i] := by
    simp [List.getD_eq_getElem?_getD, List.getElem?_eq_getElem hl]
  rw [this]
  exact List.getElem_mem hl

lemma Proper.row_len {g : Grid} {rows cols : Nat} (hp : Proper g rows cols)
    {i : Nat} (h : i < rows) : (g.getD i []).length = cols :=
  hp.2 _ (hp.row_mem h)

lemma pyGet2_in (g : Grid) (rows cols r c : Nat) (hp : Proper g rows cols)
    (hr : r < rows) (hc : c < cols) :
    pyGet2 g (r : Int) (c : Int) = some (cellAt g r c) := by
  have hlen : c < (g.getD r []).length := by rw [hp.row_len hr]; exact hc
  unfold pyGet2
  rw [pyGet_nat g r [] (hp.1 ▸ hr)]
  show pyGet (g.getD r []) (c : Int) = some (cellAt g r c)
  exact pyGet_nat _ c 0 hlen

lemma pyGet2_wrap (rows cols : Nat) (g : Grid) (a b : Int)
    (hp : Proper g rows cols) (h1 : 0 < rows) (h2 : 0 < cols) :
    pyGet2 g (a % (rows : Int)) (b % (cols : Int)) =
      some (wrapCell rows cols g a b) := by
  have hrne : (rows : Int) ≠ 0 := by omega
  have hcne : (cols : Int) ≠ 0 := by omega
  have ha0 : 0 ≤ a % (rows : Int) := Int.emod_nonneg a hrne
  have ha1 : a % (rows : Int) < (rows : Int) := Int.emod_lt_of_pos a (by omega)
  have hb0 : 0 ≤ b % (cols : Int) := Int.emod_nonneg b hcne
  have hb1 : b % (cols : Int) < (cols : Int) := Int.emod_lt_of_pos b (by omega)
  have hra : (a % (rows : Int)).toNat < rows := by omega
  have hrb : (b % (cols : Int)).toNat < cols := by omega
  have e1 : ((a % (rows : Int)).toNat : Int) = a % (rows : Int) := by omega
  have e2 : ((b % (cols : Int)).toNat : Int) = b % (cols : Int) := by omega
  rw [← e1, ← e2]
  exact pyGet2_in g rows cols _ _ hp hra hrb

lemma gln_eq_neighborSum (rows cols : Nat) (g : Grid) (row col : Int)
    (hp : Proper g rows cols) (h1 : 0 < rows) (h2 : 0 < cols) :
    get_live_neighbors row col rows cols g =
      some (neighborSum rows cols g row col) := by
  have w : ∀ i j : Int,
      pyGet2 g ((row + i) % (rows : Int)) ((col + j) % (cols : Int)) =
        some (wrapCell rows cols g (row + i) (col + j)) := fun i j =>
    pyGet2_wrap rows cols g (row + i) (col + j) hp h1 h2
  simp only [get_live_neighbors, List.foldlM_cons, List.foldlM_nil, w]
  simp [neighborSum, neighborOffsets]
  omega

lemma getD_set_eq {α : Type} (l : List α) (n : Nat) (v d : α)
    (h : n < l.length) : (l.set n v).getD n d = v := by
  have h' : n < (l.set n v).length := by simpa using h
  simp [List.getD_eq_getElem?_getD, List.getElem?_eq_getElem h',
    List.getElem_set]

lemma getD_set_ne {α : Type} (l : List α) (m n : Nat) (v d : α)
    (h : m ≠ n) : (l.set m v).getD n d = l.getD n d := by
  by_cases hn : n < l.length
  · have h' : n < (l.set m v).length := by simpa using hn
    simp [List.getD_eq_getElem?_getD, List.getElem?_eq_getElem h',
      List.getElem?_eq_getElem hn, List.getElem_set, h]
  · have h1 : (l.set m v).length ≤ n := by simp; omega
    have h2 : l.length ≤ n := by omega
    simp [List.getD_eq_getElem?_getD, List.getElem?_eq_none_iff.2 h1,
      List.getElem?_eq_none_iff.2 h2]

lemma setRowCol_proper {g : Grid} {rows cols : Nat} (hp : Proper g rows cols)
    (r c : Nat) (v : Cell) : Proper (setRowCol g r c v) rows cols := by
  by_cases hr : r < rows
  · refine ⟨by simpa [setRowCol] using hp.1, ?_⟩
    intro row hrow
    rcases List.mem_or_eq_of_mem_set hrow with h | h
    · exact hp.2 _ h
    · subst h
      simpa using hp.row_len hr
  · have he : setRowCol g r c v = g := by
      unfold setRowCol
      exact List.set_eq_of_length_le (by rw [hp.1]; omega)
    rw [he]
    exact hp

lemma cellAt_setRowCol {g : Grid} {rows cols : Nat} (hp : Proper g rows cols)
    {r c : Nat} (hr : r < rows) (hc : c < cols) (v : Cell) (i j : Nat) :
    cellAt (setRowCol g r c v) i j =
      if i = r ∧ j = c then v else cellAt g i j := by
  unfold cellAt setRowCol
  by_cases hi : i = r
  · subst hi
    rw [getD_set_eq g i _ [] (by rw [hp.1]; exact hr)]
    by_cases hj : j = c
    · subst hj
      rw [getD_set_eq _ j v 0 (by rw [hp.row_len hr]; exact hc)]
      simp
    · rw [getD_set_ne _ c j v 0 (fun h => hj h.symm)]
      simp [hj]
  · rw [getD_set_ne g r i _ [] (fun h => hi h.symm)]
    simp [hi]

lemma setBuf_same (st : Store) (n : Bool) (g : Grid) : setBuf st n g n = g := by
  simp [setBuf]

lemma setBuf_other (st : Store) (n : Bool) (g : Grid) {b : Bool} (h : b ≠ n) :
    setBuf st n g b = st b := by
  simp [setBuf, h]

lemma pySet_nat {α : Type} (l : List α) (n : Nat) (v : α) (h : n < l.length) :
    pySet l (n : Int) v = some (l.set n v) := by
  unfold pySet
  rw [if_pos (by positivity), if_pos (by exact_mod_cast h)]
  simp

lemma setCellInBuf_spec (st : Store) (nxt : Bool) {rows cols : Nat}
    (row col : Nat) (v : Cell) (hp : Proper (st nxt) rows cols)
    (hr : row < rows) (hc : col < cols) :
    setCellInBuf st nxt (row : Int) (col : Int) v =
      some (setBuf st nxt (setRowCol (st nxt) row col v)) := by
  have h1 : row < (st nxt).length := hp.1 ▸ hr
  have h2 : col < ((st nxt).getD row []).length := by
    rw [hp.row_len hr]; exact hc
  simp only [setCellInBuf, pyGet_nat (st nxt) row [] h1,
    pySet_nat ((st nxt).getD row []) col v h2, Option.bind_eq_bind,
    Option.some_bind, pySet_nat (st nxt) row _ h1]
  rfl

/-- `stepCell` at an in-range cell writes exactly the B3/S23 value of
that cell into the `nxt` buffer and succeeds. -/
lemma stepCell_spec {rows cols : Nat} {cur nxt : Bool} {st : Store}
    (hpc : Proper (st cur) rows cols)
    (hpn : Proper (st nxt) rows cols) {row col : Nat}
    (hr : row < rows) (hc : col < cols) :
    stepCell rows cols cur nxt row col st =
      some (setBuf st nxt
        (setRowCol (st nxt) row col (ruleCell rows cols (st cur) row col))) := by
  have hrows : 0 < rows := by omega
  have hcols : 0 < cols := by omega
  have hgln := gln_eq_neighborSum rows cols (st cur) row col hpc hrows hcols
  have hread := pyGet2_in (st cur) rows cols row col hpc hr hc
  simp only [stepCell, hgln, Option.bind_eq_bind, Option.some_bind]
  set n := neighborSum rows cols (st cur) (row : Int) (col : Int) with hn
  by_cases h1 : n < 2 ∨ n > 3
  · rw [if_pos h1]
    rw [setCellInBuf_spec st nxt row col 0 hpn hr hc]
    unfold ruleCell
    rw [if_pos h1]
  · rw [if_neg h1]
    simp only [hread, Option.some_bind]
    by_cases h2 : n = 3 ∧ cellAt (st cur) row col = 0
    · rw [if_pos h2, setCellInBuf_spec st nxt row col 1 hpn hr hc]
      unfold ruleCell
      rw [if_neg h1, if_pos h2]
    · rw [if_neg h2, setCellInBuf_spec st nxt row col _ hpn hr hc]
      unfold ruleCell
      rw [if_neg h1, if_neg h2]

/-- Characterization of the inner (column) loop of `create_next_grid`
for one row: it succeeds, leaves the `cur` buffer untouched, and
overwrites exactly the cells `(row, c), …, (row, c+k-1)` of the `nxt`
buffer with their B3/S23 values. -/
lemma innerFold_spec {rows cols : Nat} {cur nxt : Bool} (hne : cur ≠ nxt)
    (row : Nat) (hrow : row < rows) :
    ∀ (k c : Nat) (st : Store), c + k ≤ cols →
      Proper (st cur) rows cols → Proper (st nxt) rows cols →
      ∃ st', (List.range' c k).foldlM
          (fun st col => stepCell rows cols cur nxt row col st) st = some st' ∧
        st' cur = st cur ∧ Proper (st' nxt) rows cols ∧
        ∀ i j, cellAt (st' nxt) i j =
          if i = row ∧ c ≤ j ∧ j < c + k
          then ruleCell rows cols (st cur) row j
          else cellAt (st nxt) i j := by
  intro k
  induction k with
  | zero =>
    intro c st _ _ hpn
    refine ⟨st, by simp, rfl, hpn, ?_⟩
    intro i j
    rw [if_neg (by omega)]
  | succ k ih =>
    intro c st hck hpc hpn
    have hc : c < cols := by omega
    have hstep := stepCell_spec hpc hpn hrow hc
    have hcur1 : setBuf st nxt
        (setRowCol (st nxt) row c (ruleCell rows cols (st cur) row c)) cur
          = st cur := setBuf_other _ _ _ hne
    have hnxt1 : setBuf st nxt
        (setRowCol (st nxt) row c (ruleCell rows cols (st cur) row c)) nxt
          = setRowCol (st nxt) row c (ruleCell rows cols (st cur) row c) :=
      setBuf_same _ _ _
    obtain ⟨st', hfold, hcur, hprop, hcells⟩ :=
      ih (c + 1) (setBuf st nxt
        (setRowCol (st nxt) row c (ruleCell rows cols (st cur) row c)))
        (by omega) (by rw [hcur1]; exact hpc)
        (by rw [hnxt1]; exact setRowCol_proper hpn row c _)
    refine ⟨st', ?_, by rw [hcur, hcur1], hprop, ?_⟩
    · simp only [List.range'_succ, List.foldlM_cons, hstep,
        Option.bind_eq_bind, Option.some_bind]
      exact hfold
    · intro i j
      rw [hcells i j, hcur1, hnxt1,
        cellAt_setRowCol hpn hrow hc (ruleCell rows cols (st cur) row c) i j]
      by_cases hA : i = row ∧ c + 1 ≤ j ∧ j < c + 1 + k
      · rw [if_pos hA, if_pos (by omega : i = row ∧ c ≤ j ∧ j < c + (k + 1))]
      · rw [if_neg hA]
        by_cases hB : i = row ∧ j = c
        · rw [if_pos hB, if_pos (by omega : i = row ∧ c ≤ j ∧ j < c + (k + 1))]
          rw [hB.2]
        · rw [if_neg hB, if_neg (by omega : ¬(i = row ∧ c ≤ j ∧ j < c + (k + 1)))]

/-- Characterization of the outer (row) loop of `create_next_grid`. -/
lemma outerFold_spec {rows cols : Nat} {cur nxt : Bool} (hne : cur ≠ nxt) :
    ∀ (k r : Nat) (st : Store), r + k ≤ rows →
      Proper (st cur) rows cols → Proper (st nxt) rows cols →
      ∃ st', (List.range' r k).foldlM
          (fun st row => (List.range cols).foldlM
            (fun st col => stepCell rows cols cur nxt row col st) st) st
          = some st' ∧
        st' cur = st cur ∧ Proper (st' nxt) rows cols ∧
        ∀ i j, cellAt (st' nxt) i j =
          if r ≤ i ∧ i < r + k ∧ j < cols
          then ruleCell rows cols (st cur) i j
          else cellAt (st nxt) i j := by
  intro k
  induction k with
  | zero =>
    intro r st _ _ hpn
    refine ⟨st, by simp, rfl, hpn, ?_⟩
    intro i j
    rw [if_neg (by omega)]
  | succ k ih =>
    intro r st hrk hpc hpn
    have hr : r < rows := by omega
    obtain ⟨st₁, hfold₁, hcur₁, hprop₁, hcells₁⟩ :=
      innerFold_spec hne r hr cols 0 st (by omega) hpc hpn
    obtain ⟨st', hfold, hcur, hprop, hcells⟩ :=
      ih (r + 1) st₁ (by omega) (by rw [hcur₁]; exact hpc) hprop₁
    refine ⟨st', ?_, by rw [hcur, hcur₁], hprop, ?_⟩
    · simp only [List.range'_succ, List.foldlM_cons, Option.bind_eq_bind]
      rw [← List.range_eq_range'] at hfold₁
      rw [hfold₁, Option.some_bind]
      exact hfold
    · intro i j
      rw [hcells i j, hcur₁, hcells₁ i j]
      by_cases hA : r + 1 ≤ i ∧ i < r + 1 + k ∧ j < cols
      · rw [if_pos hA, if_pos (by omega : r ≤ i ∧ i < r + (k + 1) ∧ j < cols)]
      · rw [if_neg hA]
        by_cases hB : i = r ∧ 0 ≤ j ∧ j < 0 + cols
        · rw [if_pos hB, if_pos (by omega : r ≤ i ∧ i < r + (k + 1) ∧ j < cols)]
          rw [hB.1]
        · rw [if_neg hB,
            if_neg (by omega : ¬(r ≤ i ∧ i < r + (k + 1) ∧ j < cols))]

/-- Extensionality: a proper grid whose cells agree with `f` equals the
`map`-built grid of `f`. -/
lemma grid_eq_of_cellAt {g : Grid} {rows cols : Nat} (hp : Proper g rows cols)
    (f : Nat → Nat → Cell)
    (h : ∀ i j, i < rows → j < cols → cellAt g i j = f i j) :
    g = (List.range rows).map fun i => (List.range cols).map fun j => f i j := by
  apply List.ext_getElem
  · simp [hp.1]
  · intro i h1 h2
    have hi : i < rows := by rw [← hp.1]; exact h1
    have hrowlen : g[i].length = cols := hp.2 _ (List.getElem_mem h1)
    have hgd : g.getD i [] = g[i] := by
      simp [List.getD_eq_getElem?_getD, List.getElem?_eq_getElem h1]
    apply List.ext_getElem
    · simp [hrowlen, hi]
    · intro j h3 h4
      have hj : j < cols := by rw [← hrowlen]; exact h3
      have hcell := h i j hi hj
      rw [cellAt, hgd] at hcell
      have hrd : g[i].getD j 0 = g[i][j] := by
        simp [List.getD_eq_getElem?_getD, List.getElem?_eq_getElem h3]
      rw [hrd] at hcell
      simpa [hi, hj] using hcell

lemma nextGen_proper (rows cols : Nat) (g : Grid) :
    Proper (nextGen rows cols g) rows cols := by
  constructor
  · simp [nextGen]
  · intro r hr
    rw [nextGen, List.mem_map] at hr
    obtain ⟨i, _, rfl⟩ := hr
    simp

/-- Full characterization of `create_next_grid` in the non-aliased
case: it succeeds, the `cur` buffer is untouched, and the `nxt` buffer
ends up holding exactly `nextGen` of the `cur` buffer. -/
lemma create_next_grid_spec {rows cols : Nat} {cur nxt : Bool} {st : Store}
    (hne : cur ≠ nxt) (hpc : Proper (st cur) rows cols)
    (hpn : Proper (st nxt) rows cols) :
    ∃ st', create_next_grid rows cols cur nxt st = some st' ∧
      st' cur = st cur ∧ st' nxt = nextGen rows cols (st cur) ∧
      Proper (st' nxt) rows cols := by
  obtain ⟨st', hfold, hcur, hprop, hcells⟩ :=
    outerFold_spec hne rows 0 st (by omega) hpc hpn
  refine ⟨st', ?_, hcur, ?_, hprop⟩
  · rw [create_next_grid, List.range_eq_range' rows]
    exact hfold
  · rw [nextGen]
    apply grid_eq_of_cellAt hprop
    intro i j hi hj
    rw [hcells i j, if_pos (by omega : 0 ≤ i ∧ i < 0 + rows ∧ j < cols)]

lemma anyBreak_some {α : Type} (p : α → Option Bool) (q : α → Bool) :
    ∀ l : List α, (∀ a ∈ l, p a = some (q a)) →
      anyBreak p l = some (l.any q)
  | [], _ => rfl
  | a :: as, h => by
    have ha : p a = some (q a) := h a (by simp)
    simp only [anyBreak, ha, Option.bind_eq_bind, Option.some_bind]
    cases hq : q a with
    | true =>
      rw [if_pos rfl]
      simp [List.any_cons, hq]
    | false =>
      rw [if_neg Bool.false_ne_true,
        anyBreak_some p q as (fun x hx => h x (by simp [hx]))]
      simp [List.any_cons, hq]

/-- `grid_changing` on proper grids succeeds and returns the row-major
`any`-scan of cell disagreement. -/
lemma grid_changing_eq {rows cols : Nat} {g h : Grid}
    (hg : Proper g rows cols) (hh : Proper h rows cols) :
    grid_changing rows cols g h =
      some ((List.range rows).any fun row =>
        (List.range cols).any fun col => !(cellAt g row col == cellAt h row col)) := by
  rw [grid_changing]
  apply anyBreak_some
  intro row hrow
  rw [List.mem_range] at hrow
  apply anyBreak_some
  intro col hcol
  rw [List.mem_range] at hcol
  rw [pyGet2_in g rows cols row col hg hrow hcol,
    pyGet2_in h rows cols row col hh hrow hcol]
  rfl

/-- Trace shape of the simulation loop: on stability exit the in-loop
renders carry generation numbers `gen, …, fgen - 1`; on fuel
exhaustion they carry `gen, …, gen + fuel - 1` and the final generation
number is the last of these. -/
lemma run_loop_spec {rows cols : Nat} :
    ∀ (fuel gen : Nat) (cur nxt : Bool) (st : Store), cur ≠ nxt →
      Proper (st cur) rows cols → Proper (st nxt) rows cols →
      ∃ rs fgrid fgen stable,
        run_loop rows cols fuel gen cur nxt st =
          some (rs, fgrid, fgen, stable) ∧
        (stable = true → rs.map Prod.snd = List.range' gen (fgen - gen) ∧
          gen ≤ fgen) ∧
        (stable = false → rs.map Prod.snd = List.range' gen fuel ∧
          fgen = max 1 (gen + fuel - 1)) := by
  intro fuel
  induction fuel with
  | zero =>
    intro gen cur nxt st _ _ _
    refine ⟨[], st cur, max 1 (gen - 1), false, rfl, ?_, ?_⟩
    · intro h
      cases h
    · intro _
      exact ⟨by simp, by omega⟩
  | succ fuel ih =>
    intro gen cur nxt st hne hpc hpn
    obtain ⟨st', hcng, hcur', hnxt', hprop'⟩ := create_next_grid_spec hne hpc hpn
    obtain ⟨b, hb⟩ : ∃ b, grid_changing rows cols (st cur) (st nxt) = some b :=
      ⟨_, grid_changing_eq hpc hpn⟩
    rw [run_loop, hb]
    cases b with
    | false =>
      refine ⟨[], st cur, gen, true, ?_, ?_, ?_⟩
      · simp only [Option.bind_eq_bind, Option.some_bind]
        rw [if_neg Bool.false_ne_true]
        rfl
      · intro _
        exact ⟨by simp, le_refl gen⟩
      · intro h
        cases h
    | true =>
      obtain ⟨rs, fgrid, fgen, stable, hrec, hstab, hexh⟩ :=
        ih (gen + 1) nxt cur st' (Ne.symm hne)
          (by rw [hnxt']; exact nextGen_proper rows cols (st cur))
          (by rw [hcur']; exact hpc)
      refine ⟨(st cur, gen) :: rs, fgrid, fgen, stable, ?_, ?_, ?_⟩
      · simp only [Option.bind_eq_bind, Option.some_bind]
        rw [if_pos trivial, hcng]
        simp only [Option.some_bind, hrec]
        rfl
      · intro h
        obtain ⟨hmap, hle⟩ := hstab h
        constructor
        · simp only [List.map_cons, hmap]
          have he : fgen - gen = (fgen - (gen + 1)) + 1 := by omega
          rw [he, List.range'_succ]
        · omega
      · intro h
        obtain ⟨hmap, hfg⟩ := hexh h
        constructor
        · simp only [List.map_cons, hmap, List.range'_succ]
        · rw [hfg]
          congr 1
          omega

lemma getD_in {α : Type} (l : List α) (n : Nat) (d : α) (h : n < l.length) :
    l.getD n d = l[n] := by
  simp [List.getD_eq_getElem?_getD, List.getElem?_eq_getElem h]

lemma getD_out {α : Type} (l : List α) (n : Nat) (d : α) (h : l.length ≤ n) :
    l.getD n d = d := by
  simp [List.getD_eq_getElem?_getD, List.getElem?_eq_none_iff.2 h]

lemma cellAt_binary {g : Grid} (hb : BinaryGrid g) (i j : Nat) :
    cellAt g i j = 0 ∨ cellAt g i j = 1 := by
  unfold cellAt
  by_cases hi : i < g.length
  · rw [getD_in g i [] hi]
    by_cases hj : j < g[i].length
    · rw [getD_in g[i] j 0 hj]
      exact hb _ (List.getElem_mem hi) _ (List.getElem_mem hj)
    · rw [getD_out g[i] j 0 (by omega)]
      left
      rfl
  · rw [getD_out g i [] (by omega),
      getD_out ([] : List Cell) j 0 (by simp)]
    left
    rfl

lemma wrapCell_binary {g : Grid} (hb : BinaryGrid g) (rows cols : Nat)
    (r c : Int) : wrapCell rows cols g r c = 0 ∨ wrapCell rows cols g r c = 1 :=
  cellAt_binary hb _ _

lemma sum_binary_eq_countP :
    ∀ l : List Nat, (∀ x ∈ l, x = 0 ∨ x = 1) →
      l.sum = l.countP (fun x => x == 1)
  | [], _ => rfl
  | x :: xs, h => by
    rw [List.sum_cons, List.countP_cons,
      sum_binary_eq_countP xs (fun y hy => h y (by simp [hy]))]
    rcases h x (by simp) with h0 | h1
    · subst h0
      simp
    · subst h1
      simp
      omega

lemma neighborSum_eq_posSum (rows cols : Nat) (g : Grid) (row col : Int) :
    neighborSum rows cols g row col =
      ((neighborPositions rows cols row col).map fun q => cellAt g q.1 q.2).sum := by
  simp [neighborSum, neighborPositions, neighborOffsets, wrapCell]

lemma emod_neg_one_toNat (R : Nat) (h : 0 < R) :
    ((-1 : Int) % (R : Int)).toNat = R - 1 := by
  have e : (-1 : Int) % (R : Int) = (R : Int) - 1 := by
    have h2 : ((R : Int) - 1) + (R : Int) * (-1) = -1 := by ring
    rw [← h2, Int.add_mul_emod_self_left]
    exact Int.emod_eq_of_lt (by omega) (by omega)
  rw [e]
  omega

lemma emod_zero_toNat (R : Nat) : ((0 : Int) % (R : Int)).toNat = 0 := by
  simp

lemma ruleCell_eq_if (rows cols : Nat) (g : Grid) (r c : Nat) :
    ruleCell rows cols g r c =
      if neighborSum rows cols g r c < 2 ∨ neighborSum rows cols g r c > 3
      then 0
      else if neighborSum rows cols g r c = 3 ∧ cellAt g r c = 0 then 1
      else cellAt g r c := rfl

lemma ruleCell_binary {g : Grid} (hb : BinaryGrid g) (rows cols r c : Nat) :
    ruleCell rows cols g r c = 0 ∨ ruleCell rows cols g r c = 1 := by
  rw [ruleCell_eq_if]
  split_ifs
  · left; rfl
  · right; rfl
  · exact cellAt_binary hb r c

lemma nextGen_binary (rows cols : Nat) {g : Grid} (hb : BinaryGrid g) :
    BinaryGrid (nextGen rows cols g) := by
  intro r hr c hc
  rw [nextGen, List.mem_map] at hr
  obtain ⟨i, _, rfl⟩ := hr
  rw [List.mem_map] at hc
  obtain ⟨j, _, rfl⟩ := hc
  exact ruleCell_binary hb rows cols i j

lemma create_initial_grid_binary (rows cols : Nat) (rand : Nat → Nat) :
    BinaryGrid (create_initial_grid rows cols rand) := by
  intro r hr c hc
  rw [create_initial_grid, List.mem_map] at hr
  obtain ⟨i, _, rfl⟩ := hr
  rw [List.mem_map] at hc
  obtain ⟨j, _, rfl⟩ := hc
  split_ifs
  · right; rfl
  · left; rfl

lemma cellAt_nextGen (rows cols : Nat) (g : Grid) {r c : Nat}
    (hr : r < rows) (hc : c < cols) :
    cellAt (nextGen rows cols g) r c = ruleCell rows cols g r c := by
  have h1 : r < (nextGen rows cols g).length := by simp [nextGen, hr]
  unfold cellAt
  rw [getD_in _ r [] h1]
  have h2 : (nextGen rows cols g)[r] =
      (List.range cols).map fun col => ruleCell rows cols g r col := by
    simp [nextGen]
  rw [h2, getD_in _ c 0 (by simp [hc])]
  simp

/-- Claim C1: for grids whose cells are all 0 or 1 and any in-range
cell `(r, c)`, the cell written by `create_next_grid` follows the
Conway B3/S23 rule as a function of the neighbor count `n` and current
state `s`: `n < 2` or `n > 3` gives dead; `n = 3` gives alive
regardless of `s`; `n = 2` leaves `s` unchanged. -/
theorem C1_rule_correctness (rows cols : Nat) (cur nxt : Bool) (st : Store)
    (r c : Nat) (hne : cur ≠ nxt) (hpc : Proper (st cur) rows cols)
    (hb : BinaryGrid (st cur)) (hpn : Proper (st nxt) rows cols)
    (hr : r < rows) (hc : c < cols) :
    ∃ st', create_next_grid rows cols cur nxt st = some st' ∧
      ((neighborSum rows cols (st cur) r c < 2 ∨
          neighborSum rows cols (st cur) r c > 3) →
        cellAt (st' nxt) r c = 0) ∧
      (neighborSum rows cols (st cur) r c = 3 →
        cellAt (st' nxt) r c = 1) ∧
      (neighborSum rows cols (st cur) r c = 2 →
        cellAt (st' nxt) r c = cellAt (st cur) r c) := by
  obtain ⟨st', hcng, hcur', hnxt', hprop'⟩ := create_next_grid_spec hne hpc hpn
  have hcell : cellAt (st' nxt) r c = ruleCell rows cols (st cur) r c := by
    rw [hnxt', cellAt_nextGen rows cols (st cur) hr hc]
  refine ⟨st', hcng, ?_, ?_, ?_⟩ <;> intro hn <;>
    rw [hcell, ruleCell_eq_if]
  · rw [if_pos hn]
  · rw [if_neg (by omega)]
    rcases cellAt_binary hb r c with h0 | h1
    · rw [if_pos ⟨hn, h0⟩]
    · have hng : ¬(neighborSum rows cols (st cur) r c = 3 ∧
          cellAt (st cur) r c = 0) := by
        rintro ⟨h3, h0⟩
        omega
      rw [if_neg hng]
      exact h1
  · have hng : ¬(neighborSum rows cols (st cur) r c = 3 ∧
        cellAt (st cur) r c = 0) := by
      rintro ⟨h3, h0⟩
      omega
    rw [if_neg (by omega), if_neg hng]

/-- Witness for C1 at the 5×5 blinker store, cell (1,2). -/
theorem C1_rule_correctness_witness :
    ∃ st', create_next_grid 5 5 true false blinkerStore = some st' ∧
      ((neighborSum 5 5 (blinkerStore true) 1 2 < 2 ∨
          neighborSum 5 5 (blinkerStore true) 1 2 > 3) →
        cellAt (st' false) 1 2 = 0) ∧
      (neighborSum 5 5 (blinkerStore true) 1 2 = 3 →
        cellAt (st' false) 1 2 = 1) ∧
      (neighborSum 5 5 (blinkerStore true) 1 2 = 2 →
        cellAt (st' false) 1 2 = cellAt (blinkerStore true) 1 2) :=
  C1_rule_correctness 5 5 true false blinkerStore 1 2 (by decide) (by decide)
    (by decide) (by decide) (by decide) (by decide)

/-- Claim C2: on a binary proper grid with `rows, cols ≥ 1` and an
in-range cell, `get_live_neighbors` returns the number of live cells
among exactly the eight modulo-wrapped neighbor positions (row `-1`
wraps to `rows - 1`, row `rows` wraps to `0`), a value in `[0, 8]`;
and the wrapped neighbor positions of `(0,0)` include
`(rows-1, cols-1)`, `(rows-1, 0)` and `(0, cols-1)`. -/
theorem C2_neighbor_count (rows cols : Nat) (g : Grid) (row col : Nat)
    (hp : Proper g rows cols) (hb : BinaryGrid g)
    (h1 : 1 ≤ rows) (h2 : 1 ≤ cols) (_hr : row < rows) (_hc : col < cols) :
    ∃ n, get_live_neighbors row col rows cols g = some n ∧
      n = (neighborPositions rows cols row col).countP
            (fun q => cellAt g q.1 q.2 == 1) ∧
      n ≤ 8 ∧
      [(rows - 1, cols - 1), (rows - 1, 0), (0, cols - 1)] ⊆
        neighborPositions rows cols 0 0 := by
  have hcount : neighborSum rows cols g row col =
      (neighborPositions rows cols row col).countP
        (fun q => cellAt g q.1 q.2 == 1) := by
    rw [neighborSum_eq_posSum,
      sum_binary_eq_countP _ (by
        intro x hx
        rw [List.mem_map] at hx
        obtain ⟨q, _, rfl⟩ := hx
        exact cellAt_binary hb q.1 q.2),
      List.countP_map]
    rfl
  have hlen : (neighborPositions rows cols row col).length = 8 := by
    simp [neighborPositions, neighborOffsets]
  have har : ((-1 : Int) % (rows : Int)).toNat = rows - 1 :=
    emod_neg_one_toNat rows (by omega)
  have hac : ((-1 : Int) % (cols : Int)).toNat = cols - 1 :=
    emod_neg_one_toNat cols (by omega)
  have m1 : ((rows - 1 : Nat), (cols - 1 : Nat)) ∈
      neighborPositions rows cols 0 0 := by
    simp only [neighborPositions, neighborOffsets, List.map_cons,
      List.map_nil, zero_add, List.mem_cons]
    left
    rw [har, hac]
  have m2 : ((rows - 1 : Nat), (0 : Nat)) ∈ neighborPositions rows cols 0 0 := by
    simp only [neighborPositions, neighborOffsets, List.map_cons,
      List.map_nil, zero_add, List.mem_cons]
    right; left
    rw [har, emod_zero_toNat]
  have m3 : ((0 : Nat), (cols - 1 : Nat)) ∈ neighborPositions rows cols 0 0 := by
    simp only [neighborPositions, neighborOffsets, List.map_cons,
      List.map_nil, zero_add, List.mem_cons]
    right; right; right; left
    rw [hac, emod_zero_toNat]
  refine ⟨neighborSum rows cols g row col,
    gln_eq_neighborSum rows cols g row col hp (by omega) (by omega),
    hcount, ?_, ?_⟩
  · have h8 : List.countP (fun q => cellAt g q.1 q.2 == 1)
        (neighborPositions rows cols row col) ≤
        (neighborPositions rows cols row col).length :=
      List.countP_le_length _
    rw [hcount]
    omega
  · intro a ha
    simp only [List.mem_cons, List.not_mem_nil, or_false] at ha
    rcases ha with rfl | rfl | rfl
    · exact m1
    · exact m2
    · exact m3

/-- Witness for C2 at the 3×3 single-center-cell grid, cell (0,0). -/
theorem C2_neighbor_count_witness :
    ∃ n, get_live_neighbors 0 0 3 3 crossGrid = some n ∧
      n = (neighborPositions 3 3 0 0).countP
            (fun q => cellAt crossGrid q.1 q.2 == 1) ∧
      n ≤ 8 ∧
      [(3 - 1, 3 - 1), (3 - 1, 0), (0, 3 - 1)] ⊆ neighborPositions 3 3 0 0 :=
  C2_neighbor_count 3 3 crossGrid 0 0 (by decide) (by decide) (by decide)
    (by decide) (by decide) (by decide)

/-- Claim C3: `grid_changing` returns true iff some in-range cell
differs between the two grids, and false exactly when they agree on
every in-range cell. -/
theorem C3_grid_changing_iff (rows cols : Nat) (g h : Grid)
    (hg : Proper g rows cols) (hh : Proper h rows cols) :
    ∃ b, grid_changing rows cols g h = some b ∧
      (b = true ↔
        ∃ r, r < rows ∧ ∃ c, c < cols ∧ cellAt g r c ≠ cellAt h r c) ∧
      (b = false ↔
        ∀ r, r < rows → ∀ c, c < cols → cellAt g r c = cellAt h r c) := by
  have htrue : (((List.range rows).any fun row =>
      (List.range cols).any fun col =>
        !(cellAt g row col == cellAt h row col)) = true) ↔
      ∃ r, r < rows ∧ ∃ c, c < cols ∧ cellAt g r c ≠ cellAt h r c := by
    simp [List.any_eq_true, List.mem_range]
  refine ⟨_, grid_changing_eq hg hh, htrue, ?_⟩
  rw [Bool.eq_false_iff, ne_eq, htrue]
  constructor
  · intro hno r hr c hc
    by_contra hne
    exact hno ⟨r, hr, c, hc, hne⟩
  · rintro hall ⟨r, hr, c, hc, hne⟩
    exact hne (hall r hr c hc)

/-- Witness for C3 comparing the 5×5 blinker with the dead grid. -/
theorem C3_grid_changing_iff_witness :
    ∃ b, grid_changing 5 5 blinkerGrid deadGrid5 = some b ∧
      (b = true ↔
        ∃ r, r < 5 ∧ ∃ c, c < 5 ∧
          cellAt blinkerGrid r c ≠ cellAt deadGrid5 r c) ∧
      (b = false ↔
        ∀ r, r < 5 → ∀ c, c < 5 →
          cellAt blinkerGrid r c = cellAt deadGrid5 r c) :=
  C3_grid_changing_iff 5 5 blinkerGrid deadGrid5 (by decide) (by decide)

/-- Claim C6: `create_next_grid` is deterministic and its output
depends only on the current grid — for equal current buffers and
arbitrary (possibly different) proper next-buffer contents, the
resulting next buffers are equal cell-for-cell (every cell is
overwritten). -/
theorem C6_output_determined_by_current (rows cols : Nat) (cur nxt : Bool)
    (st₁ st₂ : Store) (hne : cur ≠ nxt) (heq : st₁ cur = st₂ cur)
    (hp : Proper (st₁ cur) rows cols)
    (h1 : Proper (st₁ nxt) rows cols) (h2 : Proper (st₂ nxt) rows cols) :
    ∃ o₁ o₂, create_next_grid rows cols cur nxt st₁ = some o₁ ∧
      create_next_grid rows cols cur nxt st₂ = some o₂ ∧
      o₁ nxt = o₂ nxt := by
  obtain ⟨o₁, e₁, _, n₁, _⟩ := create_next_grid_spec hne hp h1
  obtain ⟨o₂, e₂, _, n₂, _⟩ := create_next_grid_spec hne (heq ▸ hp) h2
  exact ⟨o₁, o₂, e₁, e₂, by rw [n₁, n₂, heq]⟩

/-- Witness for C6: blinker current buffer with a dead next buffer
versus the same current buffer with a block next buffer. -/
theorem C6_output_determined_by_current_witness :
    ∃ o₁ o₂, create_next_grid 5 5 true false blinkerStore = some o₁ ∧
      create_next_grid 5 5 true false mixedStore = some o₂ ∧
      o₁ false = o₂ false :=
  C6_output_determined_by_current 5 5 true false blinkerStore mixedStore
    (by decide) (by decide) (by decide) (by decide) (by decide)

/-- Claim C7: with distinct buffers, `create_next_grid` leaves every
cell of the current grid unchanged. -/
theorem C7_current_unchanged (rows cols : Nat) (cur nxt : Bool) (st : Store)
    (hne : cur ≠ nxt) (hpc : Proper (st cur) rows cols)
    (hpn : Proper (st nxt) rows cols) :
    ∃ st', create_next_grid rows cols cur nxt st = some st' ∧
      st' cur = st cur := by
  obtain ⟨st', e, hc, _, _⟩ := create_next_grid_spec hne hpc hpn
  exact ⟨st', e, hc⟩

/-- Witness for C7 at the blinker store. -/
theorem C7_current_unchanged_witness :
    ∃ st', create_next_grid 5 5 true false blinkerStore = some st' ∧
      st' true = blinkerStore true :=
  C7_current_unchanged 5 5 true false blinkerStore (by decide) (by decide)
    (by decide)

/-- Claim C10: `create_initial_grid` only produces 0/1 cells, and for a
binary current grid every cell `create_next_grid` writes into the next
buffer is 0 or 1, so the binary representation is preserved. -/
theorem C10_binary_invariant (rows cols : Nat) (rand : Nat → Nat)
    (cur nxt : Bool) (st : Store) (hne : cur ≠ nxt)
    (hb : BinaryGrid (st cur)) (hpc : Proper (st cur) rows cols)
    (hpn : Proper (st nxt) rows cols) :
    BinaryGrid (create_initial_grid rows cols rand) ∧
    ∃ st', create_next_grid rows cols cur nxt st = some st' ∧
      BinaryGrid (st' nxt) := by
  refine ⟨create_initial_grid_binary rows cols rand, ?_⟩
  obtain ⟨st', e, _, hn, _⟩ := create_next_grid_spec hne hpc hpn
  refine ⟨st', e, ?_⟩
  rw [hn]
  exact nextGen_binary rows cols hb

/-- Witness for C10 at the blinker store with the identity draw
stream. -/
theorem C10_binary_invariant_witness :
    BinaryGrid (create_initial_grid 5 5 (fun k => k)) ∧
    ∃ st', create_next_grid 5 5 true false blinkerStore = some st' ∧
      BinaryGrid (st' false) :=
  C10_binary_invariant 5 5 (fun k => k) true false blinkerStore (by decide)
    (by decide) (by decide) (by decide)

/-- Claim C8: the 5×5 grid with a 2×2 block of live cells at
(1,1),(1,2),(2,1),(2,2) is a fixed point: `create_next_grid` reproduces
it exactly, `grid_changing` on current versus next returns false, and a
second application (with the buffer roles swapped, as the loop would
run it) again yields the identical grid. -/
theorem C8_still_life_fixed_point :
    (create_next_grid 5 5 true false blockStore).map (fun st => st false) =
      some blockGrid ∧
    grid_changing 5 5 blockGrid blockGrid = some false ∧
    (create_next_grid 5 5 false true (fun _ => blockGrid)).map
        (fun st => st true) = some blockGrid := by
  decide

/-- Claim C9: the 5×5 horizontal blinker at (2,1),(2,2),(2,3) is a
period-2 oscillator: `create_next_grid` produces the vertical blinker,
which differs from the current grid, so `grid_changing` returns true —
the stability check is strict equality, not periodicity detection. -/
theorem C9_blinker_oscillates :
    (create_next_grid 5 5 true false blinkerStore).map (fun st => st false) =
      some blinkerVertGrid ∧
    grid_changing 5 5 blinkerGrid blinkerVertGrid = some true := by
  decide

/-- Counterexample to claim C5: calling `get_live_neighbors` with
out-of-range coordinates does not raise.  On the 3×3 grid with a single
live center cell, row 5 (≥ rows) and coordinates (-1, -1) both return a
normal count rather than an error. -/
theorem C5_counterexample :
    get_live_neighbors 5 0 3 3 crossGrid ≠ none ∧
    get_live_neighbors 5 0 3 3 crossGrid = some 1 ∧
    get_live_neighbors (-1) (-1) 3 3 crossGrid = some 1 := by
  decide

lemma emod_shift (a i : Int) (R : Nat) :
    ((a % (R : Int)) + i) % (R : Int) = (a + i) % (R : Int) := by
  conv_rhs => rw [Int.add_emod]
  conv_lhs => rw [Int.add_emod]
  rw [Int.emod_emod_of_dvd a (dvd_refl _)]

/-- Amended claim C5: `get_live_neighbors` never raises on a proper
grid with positive dimensions, even for out-of-range coordinates; it
returns the normal neighbor count of the modulo-wrapped cell, i.e. it
agrees with the call at the wrapped in-range coordinates. -/
theorem C5_amended_out_of_range_wraps (rows cols : Nat) (g : Grid)
    (row col : Int) (hp : Proper g rows cols)
    (h1 : 0 < rows) (h2 : 0 < cols) :
    get_live_neighbors row col rows cols g =
      some (neighborSum rows cols g row col) ∧
    get_live_neighbors row col rows cols g =
      get_live_neighbors (row % (rows : Int)) (col % (cols : Int))
        rows cols g := by
  have hs : neighborSum rows cols g (row % (rows : Int)) (col % (cols : Int)) =
      neighborSum rows cols g row col := by
    simp only [neighborSum, wrapCell, neighborOffsets, List.map_cons,
      List.map_nil, emod_shift]
  refine ⟨gln_eq_neighborSum rows cols g row col hp h1 h2, ?_⟩
  rw [gln_eq_neighborSum rows cols g row col hp h1 h2,
    gln_eq_neighborSum rows cols g _ _ hp h1 h2, hs]

/-- Witness for the amended C5 at out-of-range coordinates (5, -4) on
the 3×3 single-center-cell grid. -/
theorem C5_amended_out_of_range_wraps_witness :
    get_live_neighbors 5 (-4) 3 3 crossGrid =
      some (neighborSum 3 3 crossGrid 5 (-4)) ∧
    get_live_neighbors 5 (-4) 3 3 crossGrid =
      get_live_neighbors ((5 : Int) % (3 : Int)) ((-4 : Int) % (3 : Int))
        3 3 crossGrid :=
  C5_amended_out_of_range_wraps 3 3 crossGrid 5 (-4) (by decide) (by decide)
    (by decide)

/-- Counterexample to claim C4: with the 5×5 blinker, a dead second
buffer and a generation limit of 2, the loop exhausts the limit and the
displayed generation numbers are `[1, 2, 2]` — the final generation
number 2 is rendered twice (once in-loop, once post-loop), so the
render callback is not called exactly once per displayed generation
number. -/
theorem C4_counterexample :
    (run_game 5 5 2 blinkerGrid deadGrid5).map (fun t => t.map Prod.snd) =
      some [1, 2, 2] ∧
    (run_game 5 5 2 blinkerGrid deadGrid5).map
        (fun t => (t.map Prod.snd).count 2) = some 2 := by
  decide

/-- Amended claim C4: the run always performs exactly one post-loop
render.  When the loop stops due to stability, the displayed generation
numbers are exactly `1, …, fgen` — one render per generation number.
When it stops by exhausting the generation limit, the numbers are
`1, …, generations - 1` followed by `generations` twice: the final
generation number is rendered twice (once inside the loop and once by
the post-loop render), every other number exactly once. -/
theorem C4_amended_render_trace (rows cols generations : Nat) (g₁ g₂ : Grid)
    (h₁ : Proper g₁ rows cols) (h₂ : Proper g₂ rows cols)
    (hg : 1 ≤ generations) :
    ∃ rs fgrid fgen stable,
      run_loop rows cols generations 1 true false
          (fun b => if b then g₁ else g₂) = some (rs, fgrid, fgen, stable) ∧
      run_game rows cols generations g₁ g₂ = some (rs ++ [(fgrid, fgen)]) ∧
      (stable = true →
        (rs ++ [(fgrid, fgen)]).map Prod.snd = List.range' 1 fgen) ∧
      (stable = false → fgen = generations ∧
        (rs ++ [(fgrid, fgen)]).map Prod.snd =
          List.range' 1 (generations - 1) ++ [generations, generations]) := by
  obtain ⟨rs, fgrid, fgen, stable, hrun, hstab, hexh⟩ :=
    run_loop_spec generations 1 true false (fun b => if b then g₁ else g₂)
      (by decide) (by simpa) (by simpa)
  refine ⟨rs, fgrid, fgen, stable, hrun, ?_, ?_, ?_⟩
  · rw [run_game, hrun]
    rfl
  · intro h
    obtain ⟨hmap, hge⟩ := hstab h
    have h1 : fgen = (fgen - 1) + 1 := by omega
    have h2 : 1 + 1 * (fgen - 1) = fgen := by omega
    have key : List.range' 1 fgen = List.range' 1 (fgen - 1) ++ [fgen] := by
      conv_lhs => rw [h1]
      rw [List.range'_concat, h2]
    rw [List.map_append, hmap, key]
    simp
  · intro h
    obtain ⟨hmap, hfg⟩ := hexh h
    have hfgen : fgen = generations := by omega
    have h1 : generations = (generations - 1) + 1 := by omega
    have h2 : 1 + 1 * (generations - 1) = generations := by omega
    have key : List.range' 1 generations =
        List.range' 1 (generations - 1) ++ [generations] := by
      conv_lhs => rw [h1]
      rw [List.range'_concat, h2]
    refine ⟨hfgen, ?_⟩
    rw [List.map_append, hmap, hfgen, key, List.append_assoc]
    simp

/-- Witness for the amended C4: blinker start, generation limit 3. -/
theorem C4_amended_render_trace_witness :
    ∃ rs fgrid fgen stable,
      run_loop 5 5 3 1 true false
          (fun b => if b then blinkerGrid else deadGrid5) =
        some (rs, fgrid, fgen, stable) ∧
      run_game 5 5 3 blinkerGrid deadGrid5 = some (rs ++ [(fgrid, fgen)]) ∧
      (stable = true →
        (rs ++ [(fgrid, fgen)]).map Prod.snd = List.range' 1 fgen) ∧
      (stable = false → fgen = 3 ∧
        (rs ++ [(fgrid, fgen)]).map Prod.snd =
          List.range' 1 (3 - 1) ++ [3, 3]) :=
  C4_amended_render_trace 5 5 3 blinkerGrid deadGrid5 (by decide) (by decide)
    (by decide)

end GameOfLife
